import Mathlib

/-!
Shallow embedding of the form-persistence core
(`useFormPersistence` in src/unnamed/part_001).

Storage model: the hook touches exactly three keys per form id,
  storageKey     = "form_persistence_" ++ formId                      (localStorage, data)
  sessionKey     = "form_persistence_" ++ formId ++ "_session"        (sessionStorage, data)
  normalCloseKey = "form_persistence_" ++ formId ++ "_normal_close"   (both tiers, marker)
so the two web-storage tiers are modelled as a record with one field per
key instead of a string-keyed map.  Stored JSON text is modelled by the
parsed object it denotes (JSON.parse after JSON.stringify is made explicit
by `jsonSerialize` below).  ISO-8601 `savedAt` strings are modelled by
their epoch-millisecond value (`JVal.vnum t`); a nonempty ISO string is
never falsy and `new Date(s).getTime()` yields exactly that value.
-/

/-- JavaScript values that can sit in a form field, as far as the hook
inspects them: null, undefined, booleans, numbers, strings and arrays. -/
inductive JVal where
  | vnull
  | vundef
  | vbool (b : Bool)
  | vnum (n : Int)
  | vstr (s : String)
  | varr (xs : List JVal)
deriving Repr

/-- A JavaScript object, in insertion order (field name to value). -/
abbrev FMap := List (String × JVal)

/-- Strict-equality test against undefined, as in `val !== undefined`. -/
def JVal.isUndef : JVal → Bool
  | .vundef => true
  | _ => false

mutual

/-- JSON round-trip of a value sitting inside an array:
`JSON.stringify` turns undefined array elements into null and recurses. -/
def jsonVal : JVal → JVal
  | .vundef => .vnull
  | .varr xs => .varr (jsonValList xs)
  | v => v

/-- JSON round-trip of every element of an array. -/
def jsonValList : List JVal → List JVal
  | [] => []
  | x :: xs => jsonVal x :: jsonValList xs

end

/-- `JSON.parse (JSON.stringify m)` for a top-level object: keys whose
value is undefined are dropped, remaining values are round-tripped. -/
def jsonSerialize (m : FMap) : FMap :=
  (m.filter (fun kv => !kv.2.isUndef)).map (fun kv => (kv.1, jsonVal kv.2))

/-- Remove a key from an object (`delete obj.savedAt`). -/
def removeKey (m : FMap) (k : String) : FMap :=
  m.filter (fun kv => !(kv.1 == k))

/-- JavaScript property assignment `obj[k] = v` on a generic association
list: the first entry with that key is overwritten in place, otherwise the
pair is appended at the end (JS objects keep insertion order). -/
def setAssoc {α : Type} : List (String × α) → String → α → List (String × α)
  | [], k, v => [(k, v)]
  | (k', v') :: rest, k, v =>
    if k' == k then (k, v) :: rest else (k', v') :: setAssoc rest k v

/-- `Object.assign(target, source)`: assign every source entry, in order,
into the target. -/
def objAssign (t s : FMap) : FMap :=
  s.foldl (fun acc kv => setAssoc acc kv.1 kv.2) t

/-- A pre-save or post-restore hook for a single field
(`DataTransformMiddleware` restricted to one field value); a thrown
exception is modelled by `Except.error` carrying the error message. -/
structure FieldHooks where
  beforeSave : Option (JVal → Except String JVal)
  afterRestore : Option (JVal → Except String JVal)

/-- The global transform middleware: both hooks receive and return the
whole field mapping. -/
structure Middleware where
  beforeSave : Option (FMap → Except String FMap)
  afterRestore : Option (FMap → Except String FMap)

/-- `handleError` builds the reported message as context ++ ": " ++ message
(the console/onError side effects carry exactly this string). -/
def handleErrorMsg (context msg : String) : String :=
  context ++ ": " ++ msg

/-- The options the hook is created with, plus the two registered transform
configurations (`currentMiddleware` / `currentFieldTransforms`). -/
structure Config where
  formId : String
  fileFields : List String
  clearOnClose : Bool
  dataExpiryMs : Int
  middleware : Middleware
  fieldTransforms : String → Option FieldHooks

/-- One iteration of the field loop in `applyBeforeSaveTransform`: apply
the field-scoped beforeSave hook if present, catching a throw by keeping
the untransformed value and reporting a context string naming the field. -/
def fieldBeforeSaveStep (cfg : Config) (k : String) (v : JVal) : JVal × Option String :=
  match cfg.fieldTransforms k with
  | some h =>
    match h.beforeSave with
    | some f =>
      match f v with
      | .ok w => (w, none)
      | .error e => (v, some (handleErrorMsg ("字段[" ++ k ++ "]保存前转换失败") e))
    | none => (v, none)
  | none => (v, none)

/-- One iteration of the field loop in `applyAfterRestoreTransform`. -/
def fieldAfterRestoreStep (cfg : Config) (k : String) (v : JVal) : JVal × Option String :=
  match cfg.fieldTransforms k with
  | some h =>
    match h.afterRestore with
    | some f =>
      match f v with
      | .ok w => (w, none)
      | .error e => (v, some (handleErrorMsg ("字段[" ++ k ++ "]恢复后转换失败") e))
    | none => (v, none)
  | none => (v, none)

/-- The field-scoped stage of `applyBeforeSaveTransform`: run every
field-scoped beforeSave hook over the fields, in insertion order. -/
def fieldAdjustedSave (cfg : Config) (data : FMap) : FMap :=
  data.map (fun kv => (kv.1, (fieldBeforeSaveStep cfg kv.1 kv.2).1))

/-- The context strings reported by the field loop of
`applyBeforeSaveTransform` (the calls it makes to `handleError`). -/
def fieldSaveReports (cfg : Config) (data : FMap) : List String :=
  data.filterMap (fun kv => (fieldBeforeSaveStep cfg kv.1 kv.2).2)

/-- `applyBeforeSaveTransform`: first run every field-scoped beforeSave
hook over the fields (in insertion order), then the global beforeSave hook
on the field-adjusted whole; each throw is caught where it happens, the
untransformed data is kept and the reported messages are collected. -/
def applyBeforeSaveTransform (cfg : Config) (data : FMap) : FMap × List String :=
  let step1 := fieldAdjustedSave cfg data
  let errs1 := fieldSaveReports cfg data
  match cfg.middleware.beforeSave with
  | some g =>
    match g step1 with
    | .ok d => (d, errs1)
    | .error e => (step1, errs1 ++ [handleErrorMsg "全局保存前转换失败" e])
  | none => (step1, errs1)

/-- The field-scoped stage of `applyAfterRestoreTransform`: run every
field-scoped afterRestore hook over the fields, in insertion order. -/
def fieldAdjustedRestore (cfg : Config) (data : FMap) : FMap :=
  data.map (fun kv => (kv.1, (fieldAfterRestoreStep cfg kv.1 kv.2).1))

/-- The context strings reported by the field loop of
`applyAfterRestoreTransform`. -/
def fieldRestoreReports (cfg : Config) (data : FMap) : List String :=
  data.filterMap (fun kv => (fieldAfterRestoreStep cfg kv.1 kv.2).2)

/-- `applyAfterRestoreTransform`: first the global afterRestore hook, then
every field-scoped afterRestore hook over the result, same catch policy. -/
def applyAfterRestoreTransform (cfg : Config) (data : FMap) : FMap × List String :=
  let gRes : FMap × List String :=
    match cfg.middleware.afterRestore with
    | some g =>
      match g data with
      | .ok d => (d, [])
      | .error e => (data, [handleErrorMsg "全局恢复后转换失败" e])
    | none => (data, [])
  (fieldAdjustedRestore cfg gRes.1, gRes.2 ++ fieldRestoreReports cfg gRes.1)

/-- The four storage slots the hook reads and writes.  `sessionData` is
sessionStorage at `sessionKey`, `localData` is localStorage at
`storageKey`, and the two flags are the value of `normalCloseKey` in each
tier; `none` means the key is absent. -/
structure StoreState where
  sessionData : Option FMap
  localData : Option FMap
  sessionCloseFlag : Option String
  localCloseFlag : Option String

/-- `isDataExpired`: absent or falsy savedAt is never expired; an ISO
timestamp (modelled as `vnum t`, always a nonempty string in the code and
hence never falsy) is expired exactly when `now - t > dataExpiryMs`.  A
string that is not a date parses to NaN, and every NaN comparison is
false. -/
def isDataExpired (cfg : Config) (savedAt : Option JVal) (now : Int) : Bool :=
  match savedAt with
  | none => false
  | some .vundef => false
  | some .vnull => false
  | some (.vbool b) => b && false
  | some (.vnum t) => now - t > cfg.dataExpiryMs
  | some (.vstr _) => false
  | some (.varr _) => false

/-- A record in the IndexedDB object store `form_files` (`StoredFile` in
the types module); `fileId` is the auto-incremented primary key and `data`
holds the ArrayBuffer payload as bytes. -/
structure StoredFile where
  fileId : Nat
  formId : String
  fieldName : String
  fileName : String
  fileType : String
  fileSize : Nat
  lastModified : Int
  data : List Nat
  savedTime : Int
deriving Repr, DecidableEq

/-- A DOM `File` handed to `saveFiles`.  `readErr` is `some msg` when the
FileReader for this file fails (its onerror path), `none` when the read
delivers the ArrayBuffer. -/
structure JSFile where
  name : String
  fileType : String
  size : Nat
  lastModified : Int
  bytes : List Nat
  readErr : Option String
deriving Repr, DecidableEq

/-- The `FileStorage` IndexedDB wrapper: the connection flag, the
auto-increment counter and the records of the single object store, in key
(= insertion) order. -/
structure BlobStore where
  initialized : Bool
  nextId : Nat
  records : List StoredFile
deriving Repr, DecidableEq

/-- Well-formedness the real object store guarantees: every key is below
the auto-increment counter and keys are unique. -/
def BlobWF (b : BlobStore) : Prop :=
  (∀ r ∈ b.records, r.fileId < b.nextId) ∧ (b.records.map (fun r => r.fileId)).Nodup

/-- The metadata record `mkStoredFile` assigned by `saveFile`. -/
def mkStoredFile (file : JSFile) (id : Nat) (formId fieldName : String) (now : Int) : StoredFile :=
  { fileId := id, formId := formId, fieldName := fieldName,
    fileName := file.name, fileType := file.fileType,
    fileSize := file.size, lastModified := file.lastModified,
    data := file.bytes, savedTime := now }

/-- The exact-match test of the `getFiles` cursor loop. -/
def fileMatches (formId fieldName : String) (r : StoredFile) : Bool :=
  r.formId == formId && r.fieldName == fieldName

/-- `getFiles(formId, fieldName)`: cursor over the store in key order,
collecting exact matches; throws when the database is not initialized. -/
def getFilesE (b : BlobStore) (formId fieldName : String) : Except String (List StoredFile) :=
  if b.initialized then .ok (b.records.filter (fileMatches formId fieldName))
  else .error "数据库未初始化"

/-- `saveFile`: read the file (may fail), then add one record with the
auto-assigned key; returns the new key. -/
def saveFileE (b : BlobStore) (file : JSFile) (formId fieldName : String) (now : Int) :
    Except String (BlobStore × Nat) :=
  if !b.initialized then .error "数据库未初始化"
  else
    match file.readErr with
    | some e => .error e
    | none =>
      .ok ({ initialized := b.initialized, nextId := b.nextId + 1,
             records := b.records ++ [mkStoredFile file b.nextId formId fieldName now] },
           b.nextId)

/-- `clearFiles(formId)`: cursor delete of every record of that form. -/
def clearFilesE (b : BlobStore) (formId : String) : Except String BlobStore :=
  if b.initialized then
    .ok { b with records := b.records.filter (fun r => !(r.formId == formId)) }
  else .error "数据库未初始化"

/-- `UploadProgress` as published through the reactive ref. -/
structure UploadProgress where
  fieldName : String
  total : Nat
  loaded : Nat
  percent : Nat
deriving Repr, DecidableEq

/-- `Math.round((loaded / total) * 100)` on exact rationals (round half
up); division by a zero total is left at the Lean convention 0 where JS
would produce NaN — no claim depends on that corner. -/
def progressPercent (loaded total : Nat) : Nat :=
  (200 * loaded + total) / (2 * total)

/-- The reactive state owned by one hook instance. -/
structure HookState where
  formData : FMap
  fileData : List (String × List StoredFile)
  hasUnsavedChanges : Bool
  uploadProgress : Option UploadProgress
  error : Option String

/-- Result shape of the two text-tier restore helpers. -/
structure TierRestore where
  st : StoreState
  formOnly : FMap
  success : Bool
  reported : List String

/-- `restoreFromSessionStorage`: read the session tier, drop (and remove
from the tier) an expired snapshot, strip `savedAt`, apply the
post-restore transforms. -/
def restoreFromSessionStorage (cfg : Config) (st : StoreState) (now : Int) : TierRestore :=
  match st.sessionData with
  | none => { st := st, formOnly := [], success := false, reported := [] }
  | some parsed =>
    if isDataExpired cfg (parsed.lookup "savedAt") now then
      { st := { st with sessionData := none }, formOnly := [], success := false, reported := [] }
    else
      let stripped := removeKey parsed "savedAt"
      let tr := applyAfterRestoreTransform cfg stripped
      { st := st, formOnly := tr.1, success := true, reported := tr.2 }

/-- `restoreFromLocalStorage`: same as the session path on the durable
tier, and on success the raw durable payload is mirrored into the session
tier. -/
def restoreFromLocalStorage (cfg : Config) (st : StoreState) (now : Int) : TierRestore :=
  match st.localData with
  | none => { st := st, formOnly := [], success := false, reported := [] }
  | some parsed =>
    if isDataExpired cfg (parsed.lookup "savedAt") now then
      { st := { st with localData := none }, formOnly := [], success := false, reported := [] }
    else
      let stripped := removeKey parsed "savedAt"
      let tr := applyAfterRestoreTransform cfg stripped
      { st := { st with sessionData := some parsed }, formOnly := tr.1, success := true,
        reported := tr.2 }

/-- The loop of `restoreFileData`: assign `fileData[field] = getFiles(...)`
for each configured file field; a throw stops the loop, is caught and
reported, and earlier assignments are kept. -/
def restoreFileDataLoop (cfg : Config) (b : BlobStore) :
    List String → List (String × List StoredFile) → List (String × List StoredFile) × List String
  | [], fd => (fd, [])
  | f :: rest, fd =>
    match getFilesE b cfg.formId f with
    | .ok fs => restoreFileDataLoop cfg b rest (setAssoc fd f fs)
    | .error e => (fd, [handleErrorMsg "恢复文件数据" e])

/-- `restoreFileData(shouldRestore)`. -/
def restoreFileData (cfg : Config) (b : BlobStore) (fd : List (String × List StoredFile))
    (shouldRestore : Bool) : List (String × List StoredFile) × List String :=
  if shouldRestore then restoreFileDataLoop cfg b cfg.fileFields fd else (fd, [])

/-- Strict emptiness test used on restored form values:
`val !== null && val !== undefined && val !== ""`. -/
def nonEmptyVal : JVal → Bool
  | .vnull => false
  | .vundef => false
  | .vstr s => !(s == "")
  | _ => true

/-- Result shape of `restoreData`. -/
structure RestoreOut where
  st : StoreState
  hs : HookState
  reported : List String

/-- `restoreData`: classify from the current tier contents, prefer the
session tier, fall back to the durable tier only in the crash-recovery
case, merge the restored mapping into the live form state, restore file
fields when a text tier was consulted, then recompute
`hasUnsavedChanges` and clear the error state.  Every failure inside is
recovered locally, so the outer catch of the source is unreachable in
this model (web-storage access itself is assumed available). -/
def restoreData (cfg : Config) (st : StoreState) (b : BlobStore) (hs : HookState)
    (now : Int) : RestoreOut :=
  let sessionExists := st.sessionData.isSome
  let isNormalClose := st.localCloseFlag == some "true"
  let hasLocalStorageData := st.localData.isSome
  let isCrashRecovery := !sessionExists && hasLocalStorageData && !isNormalClose
  let sessionResult := restoreFromSessionStorage cfg st now
  let afterText : StoreState × FMap × Bool × List String :=
    if sessionResult.success then
      (sessionResult.st, sessionResult.formOnly, false, sessionResult.reported)
    else if isCrashRecovery then
      let localResult := restoreFromLocalStorage cfg sessionResult.st now
      if localResult.success then
        (localResult.st, localResult.formOnly, true, sessionResult.reported ++ localResult.reported)
      else
        (localResult.st, [], false, sessionResult.reported ++ localResult.reported)
    else (sessionResult.st, [], false, sessionResult.reported)
  let st2 := afterText.1
  let formOnly := afterText.2.1
  let isFromLocalStorage := afterText.2.2.1
  let formData2 := if formOnly.isEmpty then hs.formData else objAssign hs.formData formOnly
  let shouldRestoreFiles :=
    sessionExists || isFromLocalStorage || (!isNormalClose && st2.localData.isSome)
  let fileRes := restoreFileData cfg b hs.fileData shouldRestoreFiles
  let hasData := formData2.any (fun kv => nonEmptyVal kv.2)
  let hasFiles := fileRes.1.any (fun kv => !kv.2.isEmpty)
  { st := st2,
    hs := { formData := formData2, fileData := fileRes.1,
            hasUnsavedChanges := hasData || hasFiles,
            uploadProgress := hs.uploadProgress, error := none },
    reported := afterText.2.2.2 ++ fileRes.2 }

/-- Which of the three per-form keys a tier write targets: the snapshot
key of the tier (`storageKey` in localStorage, `sessionKey` in
sessionStorage) or the close-marker key `normalCloseKey`. -/
inductive KeyTag where
  | dataKey
  | closeKey
deriving Repr, DecidableEq

/-- A write into one of the two web-storage tiers (session = volatile,
localStorage = durable). -/
inductive WriteEv where
  | sessionWrite (k : KeyTag)
  | localWrite (k : KeyTag)
deriving Repr, DecidableEq

/-- Result shape of `saveTextData`, with the ordered trace of its tier
writes. -/
structure SaveTextOut where
  st : StoreState
  hs : HookState
  reported : List String
  trace : List WriteEv

/-- `saveTextData`: run the pre-save transforms (throws are caught and
reported inside), stamp `savedAt = now`, serialize, write the session
tier and then the durable tier, mark unsaved changes and clear the error
state. -/
def saveTextData (cfg : Config) (st : StoreState) (hs : HookState) (now : Int) : SaveTextOut :=
  let tr := applyBeforeSaveTransform cfg hs.formData
  let dataString := jsonSerialize (setAssoc tr.1 "savedAt" (.vnum now))
  { st := { st with sessionData := some dataString, localData := some dataString },
    hs := { hs with hasUnsavedChanges := true, error := none },
    reported := tr.2,
    trace := [.sessionWrite .dataKey, .localWrite .dataKey] }

/-- Result shape of `handlePageClose`. -/
structure CloseOut where
  st : StoreState
  hs : HookState
  reported : List String
  trace : List WriteEv

/-- `handlePageClose`: save pending text data (via `handlePageLeave`),
then, when the document is hidden, write the close marker into the
volatile session tier and afterwards (a zero-delay timeout, which the
single-threaded model runs next) mirror it into the durable tier if the
session copy is still there. -/
def handlePageClose (cfg : Config) (st : StoreState) (hs : HookState) (now : Int)
    (visibilityHidden : Bool) : CloseOut :=
  let s1 : CloseOut :=
    if hs.hasUnsavedChanges then
      let o := saveTextData cfg st hs now
      { st := o.st, hs := o.hs, reported := o.reported, trace := o.trace }
    else { st := st, hs := hs, reported := [], trace := [] }
  if visibilityHidden then
    let st2 := { s1.st with sessionCloseFlag := some "true" }
    if st2.sessionCloseFlag.isSome then
      { s1 with st := { st2 with localCloseFlag := some "true" },
                trace := s1.trace ++ [.sessionWrite .closeKey, .localWrite .closeKey] }
    else
      { s1 with st := st2, trace := s1.trace ++ [.sessionWrite .closeKey] }
  else s1

/-- The records a successful run of the `saveFiles` loop appends for
the given files, with consecutive auto-assigned keys from `startId`. -/
def mkRecords (files : List JSFile) (startId : Nat) (formId fieldName : String)
    (now : Int) : List StoredFile :=
  match files with
  | [] => []
  | f :: rest => mkStoredFile f startId formId fieldName now ::
      mkRecords rest (startId + 1) formId fieldName now

/-- `deleteOldFiles(fieldName)`: list the records of `(formId, field)`,
return early when there are none, otherwise delete each listed record by
its key; a failure is wrapped with its own context. -/
def deleteOldFiles (cfg : Config) (b : BlobStore) (fieldName : String) :
    Except String BlobStore :=
  match getFilesE b cfg.formId fieldName with
  | .error e => .error ("删除旧文件失败: " ++ e)
  | .ok oldFiles =>
    if oldFiles.isEmpty then .ok b
    else
      .ok { b with records :=
        b.records.filter (fun r => !((oldFiles.map (fun f => f.fileId)).contains r.fileId)) }

/-- `saveSingleFile`: save the file (the final progress callback reports
the whole file read, giving cumulative loaded bytes), re-read the records
of the field and locate the one with the fresh key. -/
def saveSingleFile (cfg : Config) (b : BlobStore) (file : JSFile) (fieldName : String)
    (totalSize loadedSize : Nat) (now : Int) :
    BlobStore × Except String (StoredFile × UploadProgress) :=
  match saveFileE b file cfg.formId fieldName now with
  | .error e => (b, .error e)
  | .ok bid =>
    let prog : UploadProgress :=
      { fieldName := fieldName, total := totalSize, loaded := loadedSize + file.size,
        percent := progressPercent (loadedSize + file.size) totalSize }
    match getFilesE bid.1 cfg.formId fieldName with
    | .error e => (bid.1, .error e)
    | .ok savedFiles =>
      match savedFiles.find? (fun f => f.fileId == bid.2) with
      | none => (bid.1, .error "无法找到刚保存的文件")
      | some savedFile => (bid.1, .ok (savedFile, prog))

/-- The sequential `for (const file of files)` loop of `saveFiles`,
accumulating loaded bytes and the new records; the first failure aborts
the remaining files. -/
def saveFilesLoop (cfg : Config) (fieldName : String) (totalSize : Nat) (now : Int) :
    List JSFile → BlobStore → HookState → Nat → List StoredFile →
    BlobStore × HookState × Except String (List StoredFile)
  | [], b, hs, _, acc => (b, hs, .ok acc)
  | f :: rest, b, hs, loadedSize, acc =>
    match saveSingleFile cfg b f fieldName totalSize loadedSize now with
    | (b', .error e) => (b', hs, .error e)
    | (b', .ok res) =>
      saveFilesLoop cfg fieldName totalSize now rest b'
        { hs with uploadProgress := some res.2 }
        (loadedSize + f.size) (acc ++ [res.1])

/-- Result shape of `saveFiles`. -/
structure SaveFilesOut where
  b : BlobStore
  hs : HookState
  result : Except String Unit

/-- `saveFiles(fieldName, files)`: reset error and progress, validate the
arguments, delete the old records of the field, save the new files
sequentially, and only then swap the in-memory cache; any failure is
surfaced in the error state, clears the progress and is re-raised. -/
def saveFiles (cfg : Config) (b : BlobStore) (hs : HookState) (fieldName : String)
    (files : List JSFile) (now : Int) : SaveFilesOut :=
  let hs0 := { hs with error := none, uploadProgress := none }
  if fieldName == "" || files.isEmpty then
    { b := b,
      hs := { hs0 with error := some (handleErrorMsg "保存文件" "无效的文件保存参数"),
                       uploadProgress := none },
      result := .error "无效的文件保存参数" }
  else
    match deleteOldFiles cfg b fieldName with
    | .error e =>
      { b := b, hs := { hs0 with error := some (handleErrorMsg "保存文件" e),
                                 uploadProgress := none },
        result := .error e }
    | .ok b1 =>
      let totalSize := files.foldl (fun sum f => sum + f.size) 0
      match saveFilesLoop cfg fieldName totalSize now files b1 hs0 0 [] with
      | (b2, hs2, .error e) =>
        { b := b2, hs := { hs2 with error := some (handleErrorMsg "保存文件" e),
                                    uploadProgress := none },
          result := .error e }
      | (b2, hs2, .ok newFiles) =>
        { b := b2,
          hs := { hs2 with fileData := setAssoc hs2.fileData fieldName newFiles,
                           hasUnsavedChanges := true, uploadProgress := none },
          result := .ok () }

/-- `cleanNormalCloseData`: with `clearOnClose` set, erase both text tiers
and the marker, clear the blob records of the form and empty the cache;
the blob clear throws when the store is uninitialized, in which case the
error is caught and the cache keeps its contents. -/
def cleanNormalCloseData (cfg : Config) (st : StoreState) (b : BlobStore) (hs : HookState) :
    StoreState × BlobStore × HookState × List String :=
  if cfg.clearOnClose then
    let st1 := { st with sessionData := none, localData := none, localCloseFlag := none }
    match clearFilesE b cfg.formId with
    | .ok b1 =>
      (st1, b1,
       { hs with fileData := cfg.fileFields.foldl (fun fd f => setAssoc fd f []) hs.fileData },
       [])
    | .error e => (st1, b, hs, [handleErrorMsg "清理正常关闭数据" e])
  else (st, b, hs, [])

/-- Result shape of the mount flow. -/
structure MountOut where
  st : StoreState
  b : BlobStore
  hs : HookState
  reported : List String

/-- The `onMounted` startup flow: initialize the blob store, detect a
normal close (marker present and no session snapshot), clear data or just
the marker according to `clearOnClose`, run `restoreData`, and finally
drop the marker again whenever the startup was not a refresh. -/
def onMountedFlow (cfg : Config) (st : StoreState) (b : BlobStore) (hs : HookState)
    (now : Int) : MountOut :=
  let b1 := { b with initialized := true }
  let sessionExists := st.sessionData.isSome
  let isNormalClose := st.localCloseFlag == some "true"
  let cleaned : StoreState × BlobStore × HookState × List String :=
    if !sessionExists && isNormalClose && cfg.clearOnClose then
      cleanNormalCloseData cfg { st with localCloseFlag := none } b1 hs
    else if !sessionExists && isNormalClose then
      ({ st with localCloseFlag := none }, b1, hs, [])
    else (st, b1, hs, [])
  let r := restoreData cfg cleaned.1 cleaned.2.1 cleaned.2.2.1 now
  let stFinal := if !sessionExists then { r.st with localCloseFlag := none } else r.st
  { st := stFinal, b := cleaned.2.1, hs := r.hs, reported := cleaned.2.2.2 ++ r.reported }

/-- Classifier of trace events: is this a write of a tier snapshot key
(`sessionKey` or `storageKey`)? -/
def isDataWriteEv : WriteEv → Bool
  | .sessionWrite .dataKey => true
  | .localWrite .dataKey => true
  | _ => false

/-- Classifier of trace events: is this a write of the close-marker key? -/
def isCloseWriteEv : WriteEv → Bool
  | .sessionWrite .closeKey => true
  | .localWrite .closeKey => true
  | _ => false

/-- An empty transform configuration (no middleware registered). -/
def noMw : Middleware := { beforeSave := none, afterRestore := none }

/-- A concrete hook configuration used by the concrete instances below:
form id f1, no file fields, keep-data-on-close, 24h expiry, no
transforms. -/
def exCfg : Config :=
  { formId := "f1", fileFields := [], clearOnClose := false,
    dataExpiryMs := 86400000, middleware := noMw, fieldTransforms := fun _ => none }

/-- Empty web storage. -/
def stEmpty : StoreState :=
  { sessionData := none, localData := none, sessionCloseFlag := none, localCloseFlag := none }

/-- A fresh in-memory hook state with a single empty text field. -/
def exHs : HookState :=
  { formData := [("name", .vstr "")], fileData := [],
    hasUnsavedChanges := false, uploadProgress := none, error := none }

/-- Tier contents of the C1 scenario: a durable snapshot, the close
marker set, no session snapshot. -/
def exClosedSt : StoreState :=
  { sessionData := none,
    localData := some [("name", .vstr "Ada"), ("savedAt", .vnum 1000)],
    sessionCloseFlag := none, localCloseFlag := some "true" }

/-- A blob store that has not been opened yet. -/
def exBlob : BlobStore := { initialized := false, nextId := 1, records := [] }

/-- An opened, empty blob store. -/
def exBlobInit : BlobStore := { initialized := true, nextId := 1, records := [] }

/-- A concrete 4-byte file. -/
def exFileA : JSFile :=
  { name := "a.png", fileType := "image/png", size := 4, lastModified := 11,
    bytes := [1, 2, 3, 4], readErr := none }

/-- A concrete 2-byte file. -/
def exFileB : JSFile :=
  { name := "b.png", fileType := "image/png", size := 2, lastModified := 12,
    bytes := [5, 6], readErr := none }

/-- A file whose FileReader fails. -/
def exFileBad : JSFile := { exFileA with readErr := some "读取失败" }

/-- ASCII uppercasing of a string, written so that it evaluates inside the
kernel. -/
def strUpper (s : String) : String := String.mk (s.data.map Char.toUpper)

/-- ASCII lowercasing of a string. -/
def strLower (s : String) : String := String.mk (s.data.map Char.toLower)

/-- The global beforeSave hook of the C7 scenario: append a suffix to
every string field. -/
def exGlobalSave : FMap → Except String FMap :=
  fun d => .ok (d.map (fun kv => (kv.1,
    match kv.2 with | .vstr s => .vstr (s ++ "_SUFFIX") | v => v)))

/-- The global afterRestore hook of the C7 scenario: strip the suffix
from every string field. -/
def exGlobalRestore : FMap → Except String FMap :=
  fun d => .ok (d.map (fun kv => (kv.1,
    match kv.2 with | .vstr s => .vstr (s.dropRight 7) | v => v)))

/-- The transform configuration of the C7 scenario: a field transform on
`name` that uppercases, a global middleware that appends a suffix to every
string field on save, with the inverse hooks for the restore direction. -/
def exCfg7 : Config :=
  { exCfg with
    middleware := { beforeSave := some exGlobalSave, afterRestore := some exGlobalRestore },
    fieldTransforms := fun k =>
      if k == "name" then
        some { beforeSave := some (fun v =>
                 match v with | .vstr s => .ok (.vstr (strUpper s)) | v => .ok v),
               afterRestore := some (fun v =>
                 match v with | .vstr s => .ok (.vstr (strLower s)) | v => .ok v) }
      else none }

/-- A hook state whose single field holds an array containing an
undefined element. -/
def exHs5 : HookState := { exHs with formData := [("a", .varr [.vundef])] }

/-- A configuration with a one-millisecond expiry window. -/
def exCfgTiny : Config := { exCfg with dataExpiryMs := 1 }

/-- A session snapshot with no `savedAt` key. -/
def exStNoTs : StoreState := { stEmpty with sessionData := some [("x", .vstr "v")] }

/-- A session snapshot stamped one millisecond beyond the expiry window. -/
def exStExpired : StoreState :=
  { stEmpty with
    sessionData := some [("x", .vstr "v"), ("savedAt", .vnum (1000000000 - 86400000 - 1))] }

/-- A session snapshot stamped one millisecond inside the expiry window. -/
def exStFresh : StoreState :=
  { stEmpty with
    sessionData := some [("x", .vstr "v"), ("savedAt", .vnum (1000000000 - 86400000 + 1))] }

/-- A field hook that always throws. -/
def exThrowFn : JVal → Except String JVal := fun _ => .error "boom"

/-- Field hooks that throw in both directions. -/
def exThrowHooks : FieldHooks := { beforeSave := some exThrowFn, afterRestore := some exThrowFn }

/-- A configuration whose field `bad` has throwing hooks in both
directions and no other transforms. -/
def exThrowCfg : Config :=
  { exCfg with fieldTransforms := fun k => if k == "bad" then some exThrowHooks else none }

/-- A hook state whose single field `bad` holds a string value. -/
def exHs8 : HookState := { exHs with formData := [("bad", .vstr "z")] }

/-- The `UploadProgress` value published after one file completes. -/
def progAt (fieldName : String) (totalSize loaded : Nat) : UploadProgress :=
  { fieldName := fieldName, total := totalSize, loaded := loaded,
    percent := progressPercent loaded totalSize }

theorem lookup_mapVal {β γ : Type} (F : String → β → γ) (m : List (String × β)) (k : String) :
    (m.map (fun kv => (kv.1, F kv.1 kv.2))).lookup k = (m.lookup k).map (F k) := by
  induction m with
  | nil => simp
  | cons hd tl ih =>
    by_cases hk : k = hd.1
    · simp [List.lookup, hk]
    · simp [List.lookup, hk, ih, beq_false_of_ne hk]

theorem lookup_some_mem {β : Type} {m : List (String × β)} {k : String} {v : β}
    (h : m.lookup k = some v) : (k, v) ∈ m := by
  induction m with
  | nil => simp at h
  | cons hd tl ih =>
    rw [List.lookup] at h
    by_cases hk : k = hd.1
    · simp [hk] at h
      subst h
      simp [hk]
    · simp [beq_false_of_ne hk] at h
      exact List.mem_cons_of_mem _ (ih h)

theorem setAssoc_lookup_self {β : Type} (m : List (String × β)) (k : String) (v : β) :
    (setAssoc m k v).lookup k = some v := by
  induction m with
  | nil => simp [setAssoc, List.lookup]
  | cons hd tl ih =>
    by_cases hk : hd.1 = k
    · simp [setAssoc, hk, List.lookup]
    · simp [setAssoc, beq_false_of_ne hk, List.lookup, beq_false_of_ne (Ne.symm hk), ih]

theorem setAssoc_of_lookup_eq {β : Type} {m : List (String × β)} {k : String} {v : β}
    (h : m.lookup k = some v) : setAssoc m k v = m := by
  induction m with
  | nil => simp at h
  | cons hd tl ih =>
    rw [List.lookup] at h
    by_cases hk : k = hd.1
    · simp [hk] at h
      simp [setAssoc, hk, ← h]
    · simp [beq_false_of_ne hk] at h
      simp [setAssoc, beq_false_of_ne (Ne.symm hk), ih h]

theorem objAssign_absorb {t : FMap} : ∀ {s : FMap},
    (∀ kv ∈ s, t.lookup kv.1 = some kv.2) → objAssign t s = t := by
  intro s
  induction s with
  | nil => intro _; rfl
  | cons hd tl ih =>
    intro h
    have h1 : t.lookup hd.1 = some hd.2 := h hd (List.mem_cons_self _ _)
    have : objAssign t (hd :: tl) = objAssign (setAssoc t hd.1 hd.2) tl := rfl
    rw [this, setAssoc_of_lookup_eq h1]
    exact ih (fun kv hkv => h kv (List.mem_cons_of_mem _ hkv))

theorem mem_removeKey {m : FMap} {k : String} {kv : String × JVal}
    (h : kv ∈ removeKey m k) : kv ∈ m ∧ kv.1 ≠ k := by
  rw [removeKey, List.mem_filter] at h
  refine ⟨h.1, ?_⟩
  have := h.2
  simpa using this

theorem mem_jsonSerialize {m : FMap} {kv : String × JVal} (h : kv ∈ jsonSerialize m) :
    ∃ w, (kv.1, w) ∈ m ∧ w.isUndef = false ∧ kv.2 = jsonVal w := by
  rw [jsonSerialize] at h
  rw [List.mem_map] at h
  obtain ⟨kv0, hmem, heq⟩ := h
  rw [List.mem_filter] at hmem
  refine ⟨kv0.2, ?_, by simpa using hmem.2, ?_⟩
  · have : kv.1 = kv0.1 := by rw [← heq]
    rw [this, Prod.mk.eta]
    exact hmem.1
  · rw [← heq]

theorem jsonSerialize_lookup_not_undef {m : FMap} {k : String} {v : JVal}
    (h : m.lookup k = some v) (hu : v.isUndef = false) :
    (jsonSerialize m).lookup k = some (jsonVal v) := by
  induction m with
  | nil => simp at h
  | cons hd tl ih =>
    rw [List.lookup] at h
    by_cases hk : k = hd.1
    · simp [hk] at h
      subst h
      simp [jsonSerialize, hu, List.lookup, hk]
    · simp [beq_false_of_ne hk] at h
      by_cases hud : hd.2.isUndef
      · simpa [jsonSerialize, hud] using ih h
      · have := ih h
        simp only [jsonSerialize] at this ⊢
        simpa [hud, List.lookup, beq_false_of_ne hk] using this

theorem removeKey_setAssoc (m : FMap) (k : String) (v : JVal) :
    removeKey (setAssoc m k v) k = removeKey m k := by
  induction m with
  | nil => simp [setAssoc, removeKey]
  | cons hd tl ih =>
    by_cases hk : hd.1 = k
    · simp [setAssoc, hk, removeKey]
    · simp only [setAssoc, beq_false_of_ne hk, if_false]
      simp only [removeKey, List.filter] at ih ⊢
      simp [beq_false_of_ne hk, ih]

theorem removeKey_jsonSerialize (m : FMap) (k : String) :
    removeKey (jsonSerialize m) k = jsonSerialize (removeKey m k) := by
  induction m with
  | nil => rfl
  | cons hd tl ih =>
    by_cases hk : hd.1 = k
    · by_cases hud : hd.2.isUndef
      · simp [jsonSerialize, removeKey, List.filter, hud, hk] at ih ⊢
        exact ih
      · simp [jsonSerialize, removeKey, List.filter, hud, hk, eq_self_iff_true] at ih ⊢
        exact ih
    · by_cases hud : hd.2.isUndef
      · simp [jsonSerialize, removeKey, List.filter, hud, beq_false_of_ne hk] at ih ⊢
        exact ih
      · simp [jsonSerialize, removeKey, List.filter, hud, beq_false_of_ne hk] at ih ⊢
        exact ih

theorem nodup_mem_lookup {β : Type} {m : List (String × β)} {k : String} {v : β}
    (hn : (m.map Prod.fst).Nodup) (h : (k, v) ∈ m) : m.lookup k = some v := by
  induction m with
  | nil => simp at h
  | cons hd tl ih =>
    rw [List.map_cons, List.nodup_cons] at hn
    rcases List.mem_cons.mp h with h1 | h1
    · rw [← h1]
      simp [List.lookup]
    · have hne : k ≠ hd.1 := by
        intro hkk
        exact hn.1 (hkk ▸ List.mem_map_of_mem Prod.fst h1)
      simp [List.lookup, beq_false_of_ne hne]
      exact ih hn.2 h1

theorem fieldAdjustedSave_id {cfg : Config} (hft : ∀ k, cfg.fieldTransforms k = none)
    (d : FMap) : fieldAdjustedSave cfg d = d := by
  unfold fieldAdjustedSave
  have : ∀ kv : String × JVal, (fieldBeforeSaveStep cfg kv.1 kv.2).1 = kv.2 := by
    intro kv
    simp [fieldBeforeSaveStep, hft kv.1]
  simp [this]

theorem fieldAdjustedRestore_id {cfg : Config} (hft : ∀ k, cfg.fieldTransforms k = none)
    (d : FMap) : fieldAdjustedRestore cfg d = d := by
  unfold fieldAdjustedRestore
  have : ∀ kv : String × JVal, (fieldAfterRestoreStep cfg kv.1 kv.2).1 = kv.2 := by
    intro kv
    simp [fieldAfterRestoreStep, hft kv.1]
  simp [this]

theorem applyBeforeSaveTransform_id {cfg : Config}
    (hmw : cfg.middleware.beforeSave = none) (hft : ∀ k, cfg.fieldTransforms k = none)
    (d : FMap) : applyBeforeSaveTransform cfg d = (d, []) := by
  simp [applyBeforeSaveTransform, hmw, fieldAdjustedSave_id hft, fieldSaveReports,
    fieldBeforeSaveStep, hft]

theorem applyAfterRestoreTransform_id {cfg : Config}
    (hmw : cfg.middleware.afterRestore = none) (hft : ∀ k, cfg.fieldTransforms k = none)
    (d : FMap) : applyAfterRestoreTransform cfg d = (d, []) := by
  simp [applyAfterRestoreTransform, hmw, fieldAdjustedRestore_id hft, fieldRestoreReports,
    fieldAfterRestoreStep, hft]

theorem find?_append_of_none {α : Type} {l1 : List α} (l2 : List α) (p : α → Bool)
    (h : ∀ x ∈ l1, p x = false) : (l1 ++ l2).find? p = l2.find? p := by
  induction l1 with
  | nil => rfl
  | cons hd tl ih =>
    rw [List.cons_append, List.find?]
    rw [h hd (List.mem_cons_self _ _)]
    exact ih (fun x hx => h x (List.mem_cons_of_mem _ hx))

theorem blobWF_add {b : BlobStore} (hwf : BlobWF b) (r : StoredFile)
    (hr : r.fileId = b.nextId) :
    BlobWF { initialized := b.initialized, nextId := b.nextId + 1,
             records := b.records ++ [r] } := by
  constructor
  · intro x hx
    rcases List.mem_append.mp hx with h1 | h1
    · exact Nat.lt_succ_of_lt (hwf.1 x h1)
    · rw [List.mem_singleton.mp h1, hr]
      exact Nat.lt_succ_self _
  · rw [List.map_append]
    rw [List.nodup_append]
    refine ⟨hwf.2, List.nodup_singleton _, ?_⟩
    intro x hx hy
    rw [List.mem_map] at hx
    obtain ⟨y, hy2, hy3⟩ := hx
    have hlt := hwf.1 y hy2
    have hx2 : x = r.fileId := by simpa using hy
    rw [← hy3, hr] at hx2
    omega

theorem blobWF_filter {b : BlobStore} (hwf : BlobWF b) (p : StoredFile → Bool) :
    BlobWF { b with records := b.records.filter p } := by
  constructor
  · intro x hx
    exact hwf.1 x (List.mem_of_mem_filter hx)
  · exact List.Nodup.sublist (List.Sublist.map _ (List.filter_sublist _)) hwf.2

theorem saveFileE_ok {b : BlobStore} {file : JSFile} (formId fieldName : String) (now : Int)
    (hinit : b.initialized = true) (hread : file.readErr = none) :
    saveFileE b file formId fieldName now =
      .ok ({ initialized := b.initialized, nextId := b.nextId + 1,
             records := b.records ++ [mkStoredFile file b.nextId formId fieldName now] },
           b.nextId) := by
  simp [saveFileE, hinit, hread]

theorem saveSingleFile_ok (cfg : Config) (b : BlobStore) (file : JSFile)
    (fieldName : String) (totalSize loadedSize : Nat) (now : Int)
    (hinit : b.initialized = true) (hwf : BlobWF b) (hread : file.readErr = none) :
    saveSingleFile cfg b file fieldName totalSize loadedSize now =
      ({ initialized := b.initialized, nextId := b.nextId + 1,
         records := b.records ++ [mkStoredFile file b.nextId cfg.formId fieldName now] },
       .ok (mkStoredFile file b.nextId cfg.formId fieldName now,
            { fieldName := fieldName, total := totalSize, loaded := loadedSize + file.size,
              percent := progressPercent (loadedSize + file.size) totalSize })) := by
  rw [saveSingleFile, saveFileE_ok _ _ _ hinit hread]
  have hmatch : fileMatches cfg.formId fieldName
      (mkStoredFile file b.nextId cfg.formId fieldName now) = true := by
    simp [fileMatches, mkStoredFile]
  have hfilter : (b.records ++ [mkStoredFile file b.nextId cfg.formId fieldName now]).filter
      (fileMatches cfg.formId fieldName) =
      b.records.filter (fileMatches cfg.formId fieldName) ++
        [mkStoredFile file b.nextId cfg.formId fieldName now] := by
    rw [List.filter_append]
    simp [hmatch]
  have hfind : (b.records.filter (fileMatches cfg.formId fieldName) ++
      [mkStoredFile file b.nextId cfg.formId fieldName now]).find?
        (fun f => f.fileId == b.nextId) =
      some (mkStoredFile file b.nextId cfg.formId fieldName now) := by
    rw [find?_append_of_none]
    · simp [List.find?, mkStoredFile]
    · intro x hx
      have := hwf.1 x (List.mem_of_mem_filter hx)
      simp only [beq_eq_false_iff_ne, ne_eq]
      omega
  simp only [getFilesE, hinit, if_true, hfilter, hfind]

theorem saveFilesLoop_ok (cfg : Config) (fieldName : String) (totalSize : Nat) (now : Int) :
    ∀ (files : List JSFile) (b : BlobStore) (hs : HookState) (L : Nat) (acc : List StoredFile),
    b.initialized = true → BlobWF b → (∀ f ∈ files, f.readErr = none) →
    (saveFilesLoop cfg fieldName totalSize now files b hs L acc).1.initialized = true ∧
    (saveFilesLoop cfg fieldName totalSize now files b hs L acc).1.nextId =
      b.nextId + files.length ∧
    (saveFilesLoop cfg fieldName totalSize now files b hs L acc).1.records =
      b.records ++ mkRecords files b.nextId cfg.formId fieldName now ∧
    (saveFilesLoop cfg fieldName totalSize now files b hs L acc).2.2 =
      .ok (acc ++ mkRecords files b.nextId cfg.formId fieldName now) ∧
    (saveFilesLoop cfg fieldName totalSize now files b hs L acc).2.1.formData = hs.formData ∧
    (saveFilesLoop cfg fieldName totalSize now files b hs L acc).2.1.fileData = hs.fileData ∧
    (saveFilesLoop cfg fieldName totalSize now files b hs L acc).2.1.error = hs.error ∧
    (saveFilesLoop cfg fieldName totalSize now files b hs L acc).2.1.hasUnsavedChanges =
      hs.hasUnsavedChanges := by
  intro files
  induction files with
  | nil =>
    intro b hs L acc hinit hwf _
    simp [saveFilesLoop, mkRecords, hinit]
  | cons f rest ih =>
    intro b hs L acc hinit hwf hread
    have hstep := saveSingleFile_ok cfg b f fieldName totalSize L now hinit hwf
      (hread f (List.mem_cons_self _ _))
    have hwf2 := blobWF_add hwf (mkStoredFile f b.nextId cfg.formId fieldName now) rfl
    have hloop : saveFilesLoop cfg fieldName totalSize now (f :: rest) b hs L acc =
        saveFilesLoop cfg fieldName totalSize now rest
          { initialized := b.initialized, nextId := b.nextId + 1,
            records := b.records ++ [mkStoredFile f b.nextId cfg.formId fieldName now] }
          { hs with uploadProgress := some (progAt fieldName totalSize (L + f.size)) }
          (L + f.size) (acc ++ [mkStoredFile f b.nextId cfg.formId fieldName now]) := by
      rw [saveFilesLoop, hstep]
      rfl
    have hres := ih
      { initialized := b.initialized, nextId := b.nextId + 1,
        records := b.records ++ [mkStoredFile f b.nextId cfg.formId fieldName now] }
      { hs with uploadProgress := some (progAt fieldName totalSize (L + f.size)) }
      (L + f.size) (acc ++ [mkStoredFile f b.nextId cfg.formId fieldName now])
      hinit hwf2 (fun x hx => hread x (List.mem_cons_of_mem _ hx))
    simp only at hres
    rw [hloop]
    refine ⟨hres.1, ?_, ?_, ?_, hres.2.2.2.2.1, hres.2.2.2.2.2.1,
      hres.2.2.2.2.2.2.1, hres.2.2.2.2.2.2.2⟩
    · rw [hres.2.1]
      simp only [List.length_cons]
      omega
    · rw [hres.2.2.1]
      simp [mkRecords, List.append_assoc]
    · rw [hres.2.2.2.1]
      simp [mkRecords, List.append_assoc]

theorem deleteOldFiles_ok (cfg : Config) (b : BlobStore) (fieldName : String)
    (hinit : b.initialized = true) (hwf : BlobWF b) :
    deleteOldFiles cfg b fieldName =
      .ok { b with records :=
        b.records.filter (fun r => !(fileMatches cfg.formId fieldName r)) } := by
  rw [deleteOldFiles]
  simp only [getFilesE, hinit, if_true]
  by_cases hempty : (b.records.filter (fileMatches cfg.formId fieldName)).isEmpty
  · rw [if_pos hempty]
    have hnil := List.isEmpty_iff.mp hempty
    have hall : ∀ r ∈ b.records, fileMatches cfg.formId fieldName r = false := by
      intro r hr
      simpa using List.filter_eq_nil_iff.mp hnil r hr
    have hid : b.records.filter (fun r => !(fileMatches cfg.formId fieldName r)) =
        b.records := by
      rw [List.filter_eq_self]
      intro r hr
      simp [hall r hr]
    rw [hid, ← hinit]
  · rw [if_neg hempty]
    have hcong : ∀ r ∈ b.records,
        (!(((b.records.filter (fileMatches cfg.formId fieldName)).map
            (fun f => f.fileId)).contains r.fileId)) =
        (!(fileMatches cfg.formId fieldName r)) := by
      intro r hr
      congr 1
      rcases hmr : fileMatches cfg.formId fieldName r with _ | _
      · simp only [List.contains, List.elem_eq_mem, decide_eq_false_iff_not]
        intro hmem
        rw [List.mem_map] at hmem
        obtain ⟨o, ho, hoid⟩ := hmem
        have homem := List.mem_of_mem_filter ho
        have homatch := List.of_mem_filter ho
        have hor : o = r := List.inj_on_of_nodup_map hwf.2 homem hr hoid
        rw [hor] at homatch
        rw [homatch] at hmr
        cases hmr
      · simp only [List.contains, List.elem_eq_mem, decide_eq_true_eq]
        rw [List.mem_map]
        exact ⟨r, List.mem_filter.mpr ⟨hr, hmr⟩, rfl⟩
    rw [List.filter_congr hcong]

theorem mkRecords_length (formId fieldName : String) (now : Int) :
    ∀ (files : List JSFile) (startId : Nat),
    (mkRecords files startId formId fieldName now).length = files.length := by
  intro files
  induction files with
  | nil => intro startId; rfl
  | cons f rest ih =>
    intro startId
    simp [mkRecords, ih]

theorem mkRecords_matches (formId fieldName : String) (now : Int) :
    ∀ (files : List JSFile) (startId : Nat),
    ∀ r ∈ mkRecords files startId formId fieldName now,
    fileMatches formId fieldName r = true := by
  intro files
  induction files with
  | nil => intro startId r hr; simp [mkRecords] at hr
  | cons f rest ih =>
    intro startId r hr
    rw [mkRecords] at hr
    rcases List.mem_cons.mp hr with h1 | h1
    · rw [h1]
      simp [fileMatches, mkStoredFile]
    · exact ih (startId + 1) r h1

theorem mkRecords_metadata (formId fieldName : String) (now : Int) :
    ∀ (files : List JSFile) (startId : Nat),
    (mkRecords files startId formId fieldName now).map
      (fun r => (r.fileName, r.fileType, r.fileSize, r.lastModified, r.data)) =
    files.map (fun f => (f.name, f.fileType, f.size, f.lastModified, f.bytes)) := by
  intro files
  induction files with
  | nil => intro startId; rfl
  | cons f rest ih =>
    intro startId
    simp [mkRecords, mkStoredFile, ih]

theorem saveFiles_ok (cfg : Config) (b : BlobStore) (hs : HookState) (fieldName : String)
    (files : List JSFile) (now : Int)
    (hinit : b.initialized = true) (hwf : BlobWF b)
    (hfld : (fieldName == "") = false) (hne : files.isEmpty = false)
    (hread : ∀ f ∈ files, f.readErr = none) :
    (saveFiles cfg b hs fieldName files now).result = .ok () ∧
    (saveFiles cfg b hs fieldName files now).b.initialized = true ∧
    (saveFiles cfg b hs fieldName files now).b.nextId = b.nextId + files.length ∧
    (saveFiles cfg b hs fieldName files now).b.records =
      b.records.filter (fun r => !(fileMatches cfg.formId fieldName r)) ++
        mkRecords files b.nextId cfg.formId fieldName now ∧
    (saveFiles cfg b hs fieldName files now).hs.fileData =
      setAssoc hs.fileData fieldName (mkRecords files b.nextId cfg.formId fieldName now) ∧
    (saveFiles cfg b hs fieldName files now).hs.formData = hs.formData ∧
    (saveFiles cfg b hs fieldName files now).hs.error = none ∧
    (saveFiles cfg b hs fieldName files now).hs.uploadProgress = none ∧
    (saveFiles cfg b hs fieldName files now).hs.hasUnsavedChanges = true := by
  have hdel := deleteOldFiles_ok cfg b fieldName hinit hwf
  have hwf1 : BlobWF
      { b with records := b.records.filter (fun r => !(fileMatches cfg.formId fieldName r)) } :=
    blobWF_filter hwf _
  have hloop := saveFilesLoop_ok cfg fieldName
    (files.foldl (fun sum f => sum + f.size) 0) now files
    { b with records := b.records.filter (fun r => !(fileMatches cfg.formId fieldName r)) }
    { hs with error := none, uploadProgress := none }
    0 [] hinit hwf1 hread
  simp only at hloop
  rcases hres : saveFilesLoop cfg fieldName (files.foldl (fun sum f => sum + f.size) 0) now
      files
      { b with records := b.records.filter (fun r => !(fileMatches cfg.formId fieldName r)) }
      { hs with error := none, uploadProgress := none } 0 [] with ⟨b2, hs2, r2⟩
  rw [hres] at hloop
  simp only at hloop
  obtain ⟨h1, h2, h3, h4, h5, h6, h7, h8⟩ := hloop
  rw [saveFiles]
  rw [if_neg (show ¬((fieldName == "" || files.isEmpty) = true) by simp [hfld, hne])]
  rw [hdel]
  simp only
  rw [hres, h4]
  simp only [List.nil_append]
  refine ⟨by trivial, h1, by simpa using h2, by simpa using h3, ?_, by simpa using h5, ?_,
    by trivial, by trivial⟩
  · simp only [h6]
  · simp only [h7]

theorem saveSingleFile_readFail (cfg : Config) (b : BlobStore) (file : JSFile)
    (fieldName : String) (e : String) (totalSize loadedSize : Nat) (now : Int)
    (hinit : b.initialized = true) (hread : file.readErr = some e) :
    saveSingleFile cfg b file fieldName totalSize loadedSize now = (b, .error e) := by
  rw [saveSingleFile, saveFileE]
  simp [hinit, hread]

theorem saveFilesLoop_fail (cfg : Config) (fieldName : String) (e : String)
    (totalSize : Nat) (now : Int) :
    ∀ (pre : List JSFile) (f : JSFile) (post : List JSFile) (b : BlobStore)
      (hs : HookState) (L : Nat) (acc : List StoredFile),
    b.initialized = true → BlobWF b → (∀ x ∈ pre, x.readErr = none) →
    f.readErr = some e →
    (saveFilesLoop cfg fieldName totalSize now (pre ++ f :: post) b hs L acc).1.initialized =
      true ∧
    (saveFilesLoop cfg fieldName totalSize now (pre ++ f :: post) b hs L acc).1.records =
      b.records ++ mkRecords pre b.nextId cfg.formId fieldName now ∧
    (saveFilesLoop cfg fieldName totalSize now (pre ++ f :: post) b hs L acc).2.2 =
      .error e ∧
    (saveFilesLoop cfg fieldName totalSize now (pre ++ f :: post) b hs L acc).2.1.fileData =
      hs.fileData ∧
    (saveFilesLoop cfg fieldName totalSize now (pre ++ f :: post) b hs L acc).2.1.formData =
      hs.formData ∧
    (saveFilesLoop cfg fieldName totalSize now (pre ++ f :: post) b hs L acc).2.1.error =
      hs.error := by
  intro pre
  induction pre with
  | nil =>
    intro f post b hs L acc hinit hwf _ hread
    have hstep := saveSingleFile_readFail cfg b f fieldName e totalSize L now hinit hread
    have hloop : saveFilesLoop cfg fieldName totalSize now ([] ++ f :: post) b hs L acc =
        (b, hs, .error e) := by
      rw [List.nil_append, saveFilesLoop, hstep]
    rw [hloop]
    simp [mkRecords, hinit]
  | cons p rest ih =>
    intro f post b hs L acc hinit hwf hread hf
    have hstep := saveSingleFile_ok cfg b p fieldName totalSize L now hinit hwf
      (hread p (List.mem_cons_self _ _))
    have hwf2 := blobWF_add hwf (mkStoredFile p b.nextId cfg.formId fieldName now) rfl
    have hloop : saveFilesLoop cfg fieldName totalSize now ((p :: rest) ++ f :: post) b hs
        L acc =
        saveFilesLoop cfg fieldName totalSize now (rest ++ f :: post)
          { initialized := b.initialized, nextId := b.nextId + 1,
            records := b.records ++ [mkStoredFile p b.nextId cfg.formId fieldName now] }
          { hs with uploadProgress := some (progAt fieldName totalSize (L + p.size)) }
          (L + p.size) (acc ++ [mkStoredFile p b.nextId cfg.formId fieldName now]) := by
      rw [List.cons_append, saveFilesLoop, hstep]
      rfl
    have hres := ih f post
      { initialized := b.initialized, nextId := b.nextId + 1,
        records := b.records ++ [mkStoredFile p b.nextId cfg.formId fieldName now] }
      { hs with uploadProgress := some (progAt fieldName totalSize (L + p.size)) }
      (L + p.size) (acc ++ [mkStoredFile p b.nextId cfg.formId fieldName now])
      hinit hwf2 (fun x hx => hread x (List.mem_cons_of_mem _ hx)) hf
    simp only at hres
    rw [hloop]
    refine ⟨hres.1, ?_, hres.2.2.1, hres.2.2.2.1, hres.2.2.2.2.1, hres.2.2.2.2.2⟩
    rw [hres.2.1]
    simp [mkRecords, List.append_assoc]

theorem saveFiles_fail (cfg : Config) (b : BlobStore) (hs : HookState) (fieldName : String)
    (pre : List JSFile) (f : JSFile) (post : List JSFile) (e : String) (now : Int)
    (hinit : b.initialized = true) (hwf : BlobWF b)
    (hfld : (fieldName == "") = false)
    (hpre : ∀ x ∈ pre, x.readErr = none) (hf : f.readErr = some e) :
    (saveFiles cfg b hs fieldName (pre ++ f :: post) now).result = .error e ∧
    (saveFiles cfg b hs fieldName (pre ++ f :: post) now).hs.error =
      some (handleErrorMsg "保存文件" e) ∧
    (saveFiles cfg b hs fieldName (pre ++ f :: post) now).hs.uploadProgress = none ∧
    (saveFiles cfg b hs fieldName (pre ++ f :: post) now).hs.fileData = hs.fileData ∧
    (saveFiles cfg b hs fieldName (pre ++ f :: post) now).hs.formData = hs.formData ∧
    (saveFiles cfg b hs fieldName (pre ++ f :: post) now).b.records =
      b.records.filter (fun r => !(fileMatches cfg.formId fieldName r)) ++
        mkRecords pre b.nextId cfg.formId fieldName now := by
  have hdel := deleteOldFiles_ok cfg b fieldName hinit hwf
  have hwf1 : BlobWF
      { b with records := b.records.filter (fun r => !(fileMatches cfg.formId fieldName r)) } :=
    blobWF_filter hwf _
  have hloop := saveFilesLoop_fail cfg fieldName e
    ((pre ++ f :: post).foldl (fun sum x => sum + x.size) 0) now pre f post
    { b with records := b.records.filter (fun r => !(fileMatches cfg.formId fieldName r)) }
    { hs with error := none, uploadProgress := none }
    0 [] hinit hwf1 hpre hf
  simp only at hloop
  rcases hres : saveFilesLoop cfg fieldName
      ((pre ++ f :: post).foldl (fun sum x => sum + x.size) 0) now (pre ++ f :: post)
      { b with records := b.records.filter (fun r => !(fileMatches cfg.formId fieldName r)) }
      { hs with error := none, uploadProgress := none } 0 [] with ⟨b2, hs2, r2⟩
  rw [hres] at hloop
  simp only at hloop
  obtain ⟨h1, h2, h3, h4, h5, h6⟩ := hloop
  rw [saveFiles]
  rw [if_neg (show ¬((fieldName == "" || (pre ++ f :: post).isEmpty) = true) by
    simp [hfld])]
  rw [hdel]
  simp only
  rw [hres, h3]
  simp only
  exact ⟨trivial, trivial, trivial, h4, h5, h2⟩

theorem exBlobInit_wf : BlobWF exBlobInit := by
  constructor
  · intro r hr
    cases hr
  · exact List.nodup_nil

/-- C9.  After every `restoreData` call that completes (in this model every
call completes with its error state cleared), `hasUnsavedChanges` is true
exactly when some form field holds a value other than null, undefined or
the empty string, or some file field holds a nonempty record list; in
particular an empty-array field counts as data. -/
theorem c9_hasUnsavedChanges_after_restore (cfg : Config) (st : StoreState) (b : BlobStore)
    (hs : HookState) (now : Int) :
    (restoreData cfg st b hs now).hs.error = none ∧
    (restoreData cfg st b hs now).hs.hasUnsavedChanges =
      (((restoreData cfg st b hs now).hs.formData.any (fun kv => nonEmptyVal kv.2)) ||
       ((restoreData cfg st b hs now).hs.fileData.any (fun kv => !kv.2.isEmpty))) ∧
    nonEmptyVal (.varr []) = true := by
  refine ⟨rfl, rfl, rfl⟩

/-- C2.  Write order: a text save always writes the session tier strictly
before the durable tier ([session data write, durable data write] and
nothing else), and the close path writes the close marker into the
volatile session tier strictly before mirroring it to the durable tier —
stated as the data-key and close-key subsequences of the write trace. -/
theorem c2_write_order (cfg : Config) (st : StoreState) (hs : HookState) (now : Int)
    (visibilityHidden : Bool) :
    (saveTextData cfg st hs now).trace = [.sessionWrite .dataKey, .localWrite .dataKey] ∧
    (handlePageClose cfg st hs now visibilityHidden).trace.filter isDataWriteEv =
      (if hs.hasUnsavedChanges then [.sessionWrite .dataKey, .localWrite .dataKey] else []) ∧
    (handlePageClose cfg st hs now visibilityHidden).trace.filter isCloseWriteEv =
      (if visibilityHidden then [.sessionWrite .closeKey, .localWrite .closeKey] else []) := by
  refine ⟨rfl, ?_, ?_⟩ <;>
    cases hu : hs.hasUnsavedChanges <;>
      cases hv : visibilityHidden <;>
        simp [handlePageClose, saveTextData, hu, hv, isDataWriteEv, isCloseWriteEv]

/-- C10.  A stored snapshot whose JSON has no `savedAt` key is never
considered expired — `isDataExpired` returns false for an absent
timestamp — so restore accepts it and merges it into the form state, for
every `now` and every configured `dataExpiryMs`. -/
theorem c10_missing_savedAt_never_expires (cfg : Config) (st : StoreState) (b : BlobStore)
    (hs : HookState) (now : Int) (d : FMap)
    (hsess : st.sessionData = some d) (hts : d.lookup "savedAt" = none) :
    isDataExpired cfg none now = false ∧
    (restoreFromSessionStorage cfg st now).success = true ∧
    (restoreFromSessionStorage cfg st now).formOnly =
      (applyAfterRestoreTransform cfg (removeKey d "savedAt")).1 ∧
    (restoreData cfg st b hs now).hs.formData =
      objAssign hs.formData ((applyAfterRestoreTransform cfg (removeKey d "savedAt")).1) := by
  have hsr : restoreFromSessionStorage cfg st now =
      { st := st, formOnly := (applyAfterRestoreTransform cfg (removeKey d "savedAt")).1,
        success := true,
        reported := (applyAfterRestoreTransform cfg (removeKey d "savedAt")).2 } := by
    rw [restoreFromSessionStorage, hsess]
    simp [hts, isDataExpired]
  refine ⟨rfl, by rw [hsr], by rw [hsr], ?_⟩
  rw [restoreData, hsr]
  simp only [hsess, Option.isSome_some]
  by_cases hempty : ((applyAfterRestoreTransform cfg (removeKey d "savedAt")).1).isEmpty
  · have hnil := List.isEmpty_iff.mp hempty
    simp [hempty, hnil, objAssign]
  · simp [hempty]

/-- C6.  Expiry boundary: a snapshot stamped `now - expiry - 1` is
rejected on restore and removed from its tier, one stamped
`now - expiry + 1` is accepted, and on a timestamped snapshot the expiry
test rejects exactly when the age strictly exceeds `dataExpiryMs`; this
holds on the session tier and on the durable tier alike. -/
theorem c6_expiry_boundary (cfg : Config) (st : StoreState) (d : FMap) (now : Int) :
    (∀ t : Int, isDataExpired cfg (some (.vnum t)) now =
      decide (now - t > cfg.dataExpiryMs)) ∧
    (st.sessionData = some d →
      d.lookup "savedAt" = some (.vnum (now - cfg.dataExpiryMs - 1)) →
      (restoreFromSessionStorage cfg st now).success = false ∧
      (restoreFromSessionStorage cfg st now).st.sessionData = none) ∧
    (st.sessionData = some d →
      d.lookup "savedAt" = some (.vnum (now - cfg.dataExpiryMs + 1)) →
      (restoreFromSessionStorage cfg st now).success = true) ∧
    (st.localData = some d →
      d.lookup "savedAt" = some (.vnum (now - cfg.dataExpiryMs - 1)) →
      (restoreFromLocalStorage cfg st now).success = false ∧
      (restoreFromLocalStorage cfg st now).st.localData = none) ∧
    (st.localData = some d →
      d.lookup "savedAt" = some (.vnum (now - cfg.dataExpiryMs + 1)) →
      (restoreFromLocalStorage cfg st now).success = true) := by
  have hexp : isDataExpired cfg (some (.vnum (now - cfg.dataExpiryMs - 1))) now = true := by
    simp only [isDataExpired, decide_eq_true_eq]
    omega
  have hok : isDataExpired cfg (some (.vnum (now - cfg.dataExpiryMs + 1))) now = false := by
    simp only [isDataExpired, decide_eq_false_iff_not]
    omega
  refine ⟨fun t => rfl, ?_, ?_, ?_, ?_⟩
  · intro hsess hts
    rw [restoreFromSessionStorage, hsess]
    simp [hts, hexp]
  · intro hsess hts
    rw [restoreFromSessionStorage, hsess]
    simp [hts, hok]
  · intro hloc hts
    rw [restoreFromLocalStorage, hloc]
    simp [hts, hexp]
  · intro hloc hts
    rw [restoreFromLocalStorage, hloc]
    simp [hts, hok]

/-- C7.  Transform order: on save the global beforeSave hook receives the
field-adjusted mapping (field-scoped hooks run first), on restore the
field-scoped hooks run over the output of the global afterRestore hook
(global first); concretely, with a field transform that uppercases and a
global transform that appends a suffix, saving value x serializes as
X_SUFFIX and restoring applies the inverse order back to x. -/
theorem c7_transform_order :
    (∀ (cfg : Config) (data d : FMap) (g : FMap → Except String FMap),
      cfg.middleware.beforeSave = some g → g (fieldAdjustedSave cfg data) = .ok d →
      (applyBeforeSaveTransform cfg data).1 = d) ∧
    (∀ (cfg : Config) (data d : FMap) (g : FMap → Except String FMap),
      cfg.middleware.afterRestore = some g → g data = .ok d →
      (applyAfterRestoreTransform cfg data).1 = fieldAdjustedRestore cfg d) ∧
    (applyBeforeSaveTransform exCfg7 [("name", .vstr "x")]).1 =
      [("name", .vstr "X_SUFFIX")] ∧
    (applyAfterRestoreTransform exCfg7 [("name", .vstr "X_SUFFIX")]).1 =
      [("name", .vstr "x")] := by
  refine ⟨?_, ?_, by rfl, by rfl⟩
  · intro cfg data d g hg hok
    rw [applyBeforeSaveTransform]
    simp [hg, hok]
  · intro cfg data d g hg hok
    rw [applyAfterRestoreTransform]
    simp [hg, hok]

/-- C8.  A thrown transform hook is caught at the point of application and
reported with a context string naming the field and direction, the
untransformed value of that field is kept, the other fields are still
transformed, and on the save side the write still completes with both
tiers written and `hasUnsavedChanges` set; symmetrically on restore. -/
theorem c8_transform_failure_fallback :
    (∀ (cfg : Config) (st : StoreState) (hs : HookState) (now : Int) (k : String) (v : JVal)
       (h : FieldHooks) (f : JVal → Except String JVal) (e : String),
      cfg.middleware.beforeSave = none →
      hs.formData.lookup k = some v →
      cfg.fieldTransforms k = some h → h.beforeSave = some f → f v = .error e →
      (handleErrorMsg ("字段[" ++ k ++ "]保存前转换失败") e) ∈
        (saveTextData cfg st hs now).reported ∧
      (applyBeforeSaveTransform cfg hs.formData).1.lookup k = some v ∧
      (∀ (k2 : String) (v2 w2 : JVal) (h2 : FieldHooks) (f2 : JVal → Except String JVal),
        hs.formData.lookup k2 = some v2 → cfg.fieldTransforms k2 = some h2 →
        h2.beforeSave = some f2 → f2 v2 = .ok w2 →
        (applyBeforeSaveTransform cfg hs.formData).1.lookup k2 = some w2) ∧
      (saveTextData cfg st hs now).st.sessionData =
        some (jsonSerialize
          (setAssoc (applyBeforeSaveTransform cfg hs.formData).1 "savedAt" (.vnum now))) ∧
      (saveTextData cfg st hs now).st.localData =
        (saveTextData cfg st hs now).st.sessionData ∧
      (saveTextData cfg st hs now).hs.hasUnsavedChanges = true) ∧
    (∀ (cfg : Config) (data : FMap) (k : String) (v : JVal)
       (h : FieldHooks) (f : JVal → Except String JVal) (e : String),
      cfg.middleware.afterRestore = none →
      data.lookup k = some v →
      cfg.fieldTransforms k = some h → h.afterRestore = some f → f v = .error e →
      (handleErrorMsg ("字段[" ++ k ++ "]恢复后转换失败") e) ∈
        (applyAfterRestoreTransform cfg data).2 ∧
      (applyAfterRestoreTransform cfg data).1.lookup k = some v ∧
      (∀ (k2 : String) (v2 w2 : JVal) (h2 : FieldHooks) (f2 : JVal → Except String JVal),
        data.lookup k2 = some v2 → cfg.fieldTransforms k2 = some h2 →
        h2.afterRestore = some f2 → f2 v2 = .ok w2 →
        (applyAfterRestoreTransform cfg data).1.lookup k2 = some w2)) := by
  constructor
  · intro cfg st hs now k v h f e hmw hlk hft hbs hthrow
    have habt : applyBeforeSaveTransform cfg hs.formData =
        (fieldAdjustedSave cfg hs.formData, fieldSaveReports cfg hs.formData) := by
      rw [applyBeforeSaveTransform]
      simp [hmw]
    have hstep : fieldBeforeSaveStep cfg k v =
        (v, some (handleErrorMsg ("字段[" ++ k ++ "]保存前转换失败") e)) := by
      simp [fieldBeforeSaveStep, hft, hbs, hthrow]
    refine ⟨?_, ?_, ?_, rfl, rfl, rfl⟩
    · show _ ∈ (applyBeforeSaveTransform cfg hs.formData).2
      rw [habt]
      simp only [fieldSaveReports, List.mem_filterMap]
      exact ⟨(k, v), lookup_some_mem hlk, by rw [hstep]⟩
    · rw [habt]
      simp only [fieldAdjustedSave]
      rw [lookup_mapVal (fun k1 v1 => (fieldBeforeSaveStep cfg k1 v1).1), hlk]
      simp [hstep]
    · intro k2 v2 w2 h2 f2 hlk2 hft2 hbs2 hok2
      rw [habt]
      simp only [fieldAdjustedSave]
      rw [lookup_mapVal (fun k1 v1 => (fieldBeforeSaveStep cfg k1 v1).1), hlk2]
      simp [fieldBeforeSaveStep, hft2, hbs2, hok2]
  · intro cfg data k v h f e hmw hlk hft har hthrow
    have habt : applyAfterRestoreTransform cfg data =
        (fieldAdjustedRestore cfg data, fieldRestoreReports cfg data) := by
      rw [applyAfterRestoreTransform]
      simp [hmw]
    have hstep : fieldAfterRestoreStep cfg k v =
        (v, some (handleErrorMsg ("字段[" ++ k ++ "]恢复后转换失败") e)) := by
      simp [fieldAfterRestoreStep, hft, har, hthrow]
    refine ⟨?_, ?_, ?_⟩
    · rw [habt]
      simp only [fieldRestoreReports, List.mem_filterMap]
      exact ⟨(k, v), lookup_some_mem hlk, by rw [hstep]⟩
    · rw [habt]
      simp only [fieldAdjustedRestore]
      rw [lookup_mapVal (fun k1 v1 => (fieldAfterRestoreStep cfg k1 v1).1), hlk]
      simp [hstep]
    · intro k2 v2 w2 h2 f2 hlk2 hft2 har2 hok2
      rw [habt]
      simp only [fieldAdjustedRestore]
      rw [lookup_mapVal (fun k1 v1 => (fieldAfterRestoreStep cfg k1 v1).1), hlk2]
      simp [fieldAfterRestoreStep, hft2, har2, hok2]

/-- C1 (divergence witness).  Startup with a durable snapshot present, the
close marker set, no session snapshot and `clearOnClose = false`: the
claim and the spec say this is a NormalRestart and the durable tier must
not be used for restore, but the mount flow removes the marker before
`restoreData` re-reads it, so `restoreData` classifies the startup as
crash recovery and restores the durable snapshot into the form state. -/
theorem c1_normal_restart_restores_durable :
    exClosedSt.localCloseFlag = some "true" ∧
    exClosedSt.sessionData = none ∧
    exClosedSt.localData =
      some [("name", .vstr "Ada"), ("savedAt", .vnum 1000)] ∧
    exCfg.clearOnClose = false ∧
    exHs.formData = [("name", .vstr "")] ∧
    (onMountedFlow exCfg exClosedSt exBlob exHs 2000).hs.formData =
      [("name", .vstr "Ada")] := by
  refine ⟨rfl, rfl, rfl, rfl, rfl, ?_⟩
  rfl

/-- C5 (counterexample).  The round-trip claim quantifies over every field
mapping, but a field holding an array with an undefined element comes back
changed: JSON serialization turns the element into null, and the restore
merge overwrites the live value, so save-then-restore in the same process
is not deep-equal to the original mapping. -/
theorem c5_roundtrip_counterexample :
    exHs5.formData = [("a", .varr [.vundef])] ∧
    (restoreData exCfg (saveTextData exCfg stEmpty exHs5 5).st exBlob
      (saveTextData exCfg stEmpty exHs5 5).hs 5).hs.formData =
      [("a", .varr [.vnull])] ∧
    (restoreData exCfg (saveTextData exCfg stEmpty exHs5 5).st exBlob
      (saveTextData exCfg stEmpty exHs5 5).hs 5).hs.formData ≠ exHs5.formData := by
  refine ⟨rfl, by rfl, ?_⟩
  have h : (restoreData exCfg (saveTextData exCfg stEmpty exHs5 5).st exBlob
      (saveTextData exCfg stEmpty exHs5 5).hs 5).hs.formData =
      [("a", .varr [.vnull])] := by rfl
  rw [h]
  show ¬([("a", JVal.varr [JVal.vnull])] = exHs5.formData)
  have h2 : exHs5.formData = [("a", .varr [.vundef])] := rfl
  rw [h2]
  simp

/-- C5 (amended).  For every field mapping with distinct field names, no
registered transforms, a nonnegative expiry window, and values unchanged
by a JSON round-trip (an undefined top-level value is also fine, since its
key is dropped on save and therefore never overwritten on restore),
`saveTextData` followed immediately by `restoreData` in the same process
leaves the form state deep-equal to the saved mapping. -/
theorem c5_roundtrip_amended (cfg : Config) (st : StoreState) (b : BlobStore)
    (hs : HookState) (now : Int)
    (hmw1 : cfg.middleware.beforeSave = none) (hmw2 : cfg.middleware.afterRestore = none)
    (hft : ∀ k, cfg.fieldTransforms k = none)
    (hexp : 0 ≤ cfg.dataExpiryMs)
    (hnodup : (hs.formData.map Prod.fst).Nodup)
    (hstable : ∀ kv ∈ hs.formData, kv.2.isUndef = true ∨ jsonVal kv.2 = kv.2) :
    (restoreData cfg (saveTextData cfg st hs now).st b (saveTextData cfg st hs now).hs
      now).hs.formData = hs.formData := by
  have habt := applyBeforeSaveTransform_id hmw1 hft hs.formData
  have hsess : (saveTextData cfg st hs now).st.sessionData =
      some (jsonSerialize (setAssoc hs.formData "savedAt" (.vnum now))) := by
    rw [saveTextData, habt]
  have hlkG0 : (jsonSerialize (setAssoc hs.formData "savedAt" (.vnum now))).lookup
      "savedAt" = some (.vnum now) :=
    jsonSerialize_lookup_not_undef (setAssoc_lookup_self hs.formData "savedAt" (.vnum now))
      rfl
  have hnotexp : isDataExpired cfg (some (.vnum now)) now = false := by
    simp only [isDataExpired, decide_eq_false_iff_not]
    omega
  have hstrip : removeKey (jsonSerialize (setAssoc hs.formData "savedAt" (.vnum now)))
      "savedAt" = jsonSerialize (removeKey hs.formData "savedAt") := by
    rw [removeKey_jsonSerialize, removeKey_setAssoc]
  have hsr : restoreFromSessionStorage cfg (saveTextData cfg st hs now).st now =
      { st := (saveTextData cfg st hs now).st,
        formOnly := jsonSerialize (removeKey hs.formData "savedAt"), success := true,
        reported := [] } := by
    rw [restoreFromSessionStorage, hsess]
    simp only [hlkG0, hnotexp, Bool.false_eq_true, if_false, hstrip,
      applyAfterRestoreTransform_id hmw2 hft]
  have habs : objAssign hs.formData (jsonSerialize (removeKey hs.formData "savedAt")) =
      hs.formData := by
    apply objAssign_absorb
    intro kv hkv
    obtain ⟨w, hmem, hwund, hwval⟩ := mem_jsonSerialize hkv
    have hmem2 := (mem_removeKey hmem).1
    rcases hstable (kv.1, w) hmem2 with hcase | hcase
    · rw [hcase] at hwund
      cases hwund
    · rw [hwval, hcase]
      exact nodup_mem_lookup hnodup hmem2
  have hfd : (saveTextData cfg st hs now).hs.formData = hs.formData := rfl
  rw [restoreData, hsr]
  simp only [hsess, Option.isSome_some, Bool.true_and, Bool.not_true, Bool.false_and,
    hfd]
  by_cases hempty : (jsonSerialize (removeKey hs.formData "savedAt")).isEmpty
  · simp [hempty]
  · simp [hempty, habs]

theorem mkRecords_fileIds (formId fieldName : String) (now : Int) :
    ∀ (files : List JSFile) (startId : Nat),
    (mkRecords files startId formId fieldName now).map (fun r => r.fileId) =
      List.range' startId files.length := by
  intro files
  induction files with
  | nil => intro startId; rfl
  | cons f rest ih =>
    intro startId
    simp [mkRecords, mkStoredFile, ih, List.range']

theorem saveFiles_wf (cfg : Config) (b : BlobStore) (hs : HookState) (fieldName : String)
    (files : List JSFile) (now : Int)
    (hinit : b.initialized = true) (hwf : BlobWF b)
    (hfld : (fieldName == "") = false) (hne : files.isEmpty = false)
    (hread : ∀ f ∈ files, f.readErr = none) :
    BlobWF (saveFiles cfg b hs fieldName files now).b := by
  obtain ⟨_, _, hnext, hrec, _⟩ := saveFiles_ok cfg b hs fieldName files now
    hinit hwf hfld hne hread
  constructor
  · intro r hr
    rw [hrec] at hr
    rw [hnext]
    rcases List.mem_append.mp hr with h1 | h1
    · have := hwf.1 r (List.mem_of_mem_filter h1)
      have hlen : (0 : Nat) ≤ files.length := Nat.zero_le _
      omega
    · have : r.fileId ∈ (mkRecords files b.nextId cfg.formId fieldName now).map
          (fun x => x.fileId) := List.mem_map_of_mem _ h1
      rw [mkRecords_fileIds] at this
      have := List.mem_range'_1.mp this
      omega
  · rw [hrec, List.map_append, List.nodup_append]
    refine ⟨List.Nodup.sublist (List.Sublist.map _ (List.filter_sublist _)) hwf.2, ?_, ?_⟩
    · rw [mkRecords_fileIds]
      exact List.nodup_range' _ _
    · intro x hx hy
      rw [List.mem_map] at hx
      obtain ⟨r, hr, hrid⟩ := hx
      have hlt := hwf.1 r (List.mem_of_mem_filter hr)
      rw [mkRecords_fileIds] at hy
      have := List.mem_range'_1.mp hy
      omega

/-- C3.  Replace semantics: after two successive successful `saveFiles`
calls on the same field, the blob-store record set of that
`(formId, field)` pair is exactly the records of the second file list —
the metadata and payload agree one-to-one with the supplied files, the
count equals the file count (never a mix with old records, never zero),
and the in-memory cache holds exactly those records. -/
theorem c3_saveFiles_replace (cfg : Config) (b : BlobStore) (hs : HookState)
    (fieldName : String) (files1 files2 : List JSFile) (now1 now2 : Int)
    (hinit : b.initialized = true) (hwf : BlobWF b)
    (hfld : (fieldName == "") = false)
    (hne1 : files1.isEmpty = false) (hne2 : files2.isEmpty = false)
    (hread1 : ∀ f ∈ files1, f.readErr = none) (hread2 : ∀ f ∈ files2, f.readErr = none) :
    (saveFiles cfg b hs fieldName files1 now1).result = .ok () ∧
    (saveFiles cfg (saveFiles cfg b hs fieldName files1 now1).b
      (saveFiles cfg b hs fieldName files1 now1).hs fieldName files2 now2).result =
      .ok () ∧
    getFilesE (saveFiles cfg (saveFiles cfg b hs fieldName files1 now1).b
        (saveFiles cfg b hs fieldName files1 now1).hs fieldName files2 now2).b
        cfg.formId fieldName =
      .ok (mkRecords files2 (saveFiles cfg b hs fieldName files1 now1).b.nextId
        cfg.formId fieldName now2) ∧
    (saveFiles cfg (saveFiles cfg b hs fieldName files1 now1).b
        (saveFiles cfg b hs fieldName files1 now1).hs fieldName files2
        now2).hs.fileData.lookup fieldName =
      some (mkRecords files2 (saveFiles cfg b hs fieldName files1 now1).b.nextId
        cfg.formId fieldName now2) ∧
    (mkRecords files2 (saveFiles cfg b hs fieldName files1 now1).b.nextId
        cfg.formId fieldName now2).map
      (fun r => (r.fileName, r.fileType, r.fileSize, r.lastModified, r.data)) =
      files2.map (fun f => (f.name, f.fileType, f.size, f.lastModified, f.bytes)) ∧
    mkRecords files2 (saveFiles cfg b hs fieldName files1 now1).b.nextId
      cfg.formId fieldName now2 ≠ [] := by
  obtain ⟨hr1, hinit1, hnext1, hrec1, hfd1, hform1, herr1, hup1, hch1⟩ :=
    saveFiles_ok cfg b hs fieldName files1 now1 hinit hwf hfld hne1 hread1
  have hwf1 := saveFiles_wf cfg b hs fieldName files1 now1 hinit hwf hfld hne1 hread1
  obtain ⟨hr2, hinit2, hnext2, hrec2, hfd2, hform2, herr2, hup2, hch2⟩ :=
    saveFiles_ok cfg (saveFiles cfg b hs fieldName files1 now1).b
      (saveFiles cfg b hs fieldName files1 now1).hs fieldName files2 now2
      hinit1 hwf1 hfld hne2 hread2
  refine ⟨hr1, hr2, ?_, ?_, mkRecords_metadata cfg.formId fieldName now2 files2 _, ?_⟩
  · rw [getFilesE]
    rw [hinit2, if_pos rfl, hrec2]
    rw [List.filter_append]
    have hnil : ((saveFiles cfg b hs fieldName files1 now1).b.records.filter
        (fun r => !(fileMatches cfg.formId fieldName r))).filter
        (fileMatches cfg.formId fieldName) = [] := by
      rw [List.filter_filter]
      apply List.filter_eq_nil_iff.mpr
      intro r _
      cases fileMatches cfg.formId fieldName r <;> simp
    have hall : (mkRecords files2 (saveFiles cfg b hs fieldName files1 now1).b.nextId
        cfg.formId fieldName now2).filter (fileMatches cfg.formId fieldName) =
        mkRecords files2 (saveFiles cfg b hs fieldName files1 now1).b.nextId
          cfg.formId fieldName now2 := by
      rw [List.filter_eq_self]
      intro r hr
      exact mkRecords_matches cfg.formId fieldName now2 files2 _ r hr
    rw [hnil, hall, List.nil_append]
  · rw [hfd2]
    exact setAssoc_lookup_self _ _ _
  · intro hcontra
    have := mkRecords_length cfg.formId fieldName now2 files2
      (saveFiles cfg b hs fieldName files1 now1).b.nextId
    rw [hcontra] at this
    have hne2' : files2 ≠ [] := by
      intro hh
      rw [hh] at hne2
      cases hne2
    cases files2 with
    | nil => exact hne2' rfl
    | cons a l => simp at this

/-- C4.  `saveFiles` failure handling: an empty field name or an empty
file list fails with the invalid-argument error, leaving the blob store
and the cache untouched; and a failure at any file read aborts the
remaining files, stores the error message in the error state, clears the
upload progress, re-raises the error, keeps the pre-call `fileData`
cache, and does not restore the already-deleted old records — the store
afterwards holds exactly the surviving other-field records plus the files
saved before the failing one. -/
theorem c4_saveFiles_failure :
    (∀ (cfg : Config) (b : BlobStore) (hs : HookState) (files : List JSFile) (now : Int),
      (saveFiles cfg b hs "" files now).result = .error "无效的文件保存参数" ∧
      (saveFiles cfg b hs "" files now).b = b ∧
      (saveFiles cfg b hs "" files now).hs.error =
        some (handleErrorMsg "保存文件" "无效的文件保存参数") ∧
      (saveFiles cfg b hs "" files now).hs.uploadProgress = none ∧
      (saveFiles cfg b hs "" files now).hs.fileData = hs.fileData) ∧
    (∀ (cfg : Config) (b : BlobStore) (hs : HookState) (fieldName : String) (now : Int),
      (saveFiles cfg b hs fieldName [] now).result = .error "无效的文件保存参数" ∧
      (saveFiles cfg b hs fieldName [] now).b = b ∧
      (saveFiles cfg b hs fieldName [] now).hs.error =
        some (handleErrorMsg "保存文件" "无效的文件保存参数") ∧
      (saveFiles cfg b hs fieldName [] now).hs.uploadProgress = none ∧
      (saveFiles cfg b hs fieldName [] now).hs.fileData = hs.fileData) ∧
    (∀ (cfg : Config) (b : BlobStore) (hs : HookState) (fieldName : String)
       (pre : List JSFile) (f : JSFile) (post : List JSFile) (e : String) (now : Int),
      b.initialized = true → BlobWF b → (fieldName == "") = false →
      (∀ x ∈ pre, x.readErr = none) → f.readErr = some e →
      (saveFiles cfg b hs fieldName (pre ++ f :: post) now).result = .error e ∧
      (saveFiles cfg b hs fieldName (pre ++ f :: post) now).hs.error =
        some (handleErrorMsg "保存文件" e) ∧
      (saveFiles cfg b hs fieldName (pre ++ f :: post) now).hs.uploadProgress = none ∧
      (saveFiles cfg b hs fieldName (pre ++ f :: post) now).hs.fileData = hs.fileData ∧
      (saveFiles cfg b hs fieldName (pre ++ f :: post) now).b.records =
        b.records.filter (fun r => !(fileMatches cfg.formId fieldName r)) ++
          mkRecords pre b.nextId cfg.formId fieldName now) := by
  refine ⟨?_, ?_, ?_⟩
  · intro cfg b hs files now
    exact ⟨rfl, rfl, rfl, rfl, rfl⟩
  · intro cfg b hs fieldName now
    have hcond : (fieldName == "" || ([] : List JSFile).isEmpty) = true := by simp
    rw [saveFiles, if_pos hcond]
    exact ⟨rfl, rfl, rfl, rfl, rfl⟩
  · intro cfg b hs fieldName pre f post e now hinit hwf hfld hpre hf
    obtain ⟨h1, h2, h3, h4, h5, h6⟩ :=
      saveFiles_fail cfg b hs fieldName pre f post e now hinit hwf hfld hpre hf
    exact ⟨h1, h2, h3, h4, h6⟩

/-- Witness for C3 at a concrete two-call scenario. -/
theorem c3_saveFiles_replace_witness :
    BlobWF exBlobInit ∧ ("avatar" == "") = false ∧
    (saveFiles exCfg (saveFiles exCfg exBlobInit exHs "avatar" [exFileA] 7).b
      (saveFiles exCfg exBlobInit exHs "avatar" [exFileA] 7).hs "avatar" [exFileB]
      8).result = .ok () ∧
    getFilesE (saveFiles exCfg (saveFiles exCfg exBlobInit exHs "avatar" [exFileA] 7).b
        (saveFiles exCfg exBlobInit exHs "avatar" [exFileA] 7).hs "avatar" [exFileB] 8).b
        exCfg.formId "avatar" =
      .ok (mkRecords [exFileB] (saveFiles exCfg exBlobInit exHs "avatar" [exFileA] 7).b.nextId
        exCfg.formId "avatar" 8) := by
  have h := c3_saveFiles_replace exCfg exBlobInit exHs "avatar" [exFileA] [exFileB] 7 8
    rfl exBlobInit_wf rfl rfl rfl
    (fun f hf => by rw [List.mem_singleton.mp hf]; rfl)
    (fun f hf => by rw [List.mem_singleton.mp hf]; rfl)
  exact ⟨exBlobInit_wf, rfl, h.2.1, h.2.2.1⟩

/-- Witness for C4: the empty-field validation failure and a concrete
mid-list read failure. -/
theorem c4_saveFiles_failure_witness :
    (saveFiles exCfg exBlobInit exHs "" [exFileA] 7).result = .error "无效的文件保存参数" ∧
    exFileBad.readErr = some "读取失败" ∧
    (saveFiles exCfg exBlobInit exHs "avatar" ([exFileA] ++ exFileBad :: [exFileB])
      9).result = .error "读取失败" ∧
    (saveFiles exCfg exBlobInit exHs "avatar" ([exFileA] ++ exFileBad :: [exFileB])
      9).hs.fileData = exHs.fileData := by
  have h1 := c4_saveFiles_failure.1 exCfg exBlobInit exHs [exFileA] 7
  have h3 := c4_saveFiles_failure.2.2 exCfg exBlobInit exHs "avatar" [exFileA] exFileBad
    [exFileB] "读取失败" 9 rfl exBlobInit_wf rfl
    (fun f hf => by rw [List.mem_singleton.mp hf]; rfl) rfl
  exact ⟨h1.1, rfl, h3.1, h3.2.2.2.1⟩

/-- Witness for C5 (amended) at a concrete stable mapping. -/
theorem c5_roundtrip_amended_witness :
    (0 : Int) ≤ exCfg.dataExpiryMs ∧
    (exHs.formData.map Prod.fst).Nodup ∧
    (restoreData exCfg (saveTextData exCfg stEmpty exHs 5).st exBlob
      (saveTextData exCfg stEmpty exHs 5).hs 5).hs.formData = exHs.formData := by
  refine ⟨by decide, by simp [exHs], ?_⟩
  exact c5_roundtrip_amended exCfg stEmpty exBlob exHs 5 rfl rfl (fun _ => rfl)
    (by decide) (by simp [exHs])
    (fun kv hkv => by rw [List.mem_singleton.mp hkv]; exact Or.inr rfl)

/-- Witness for C6 at the two boundary timestamps. -/
theorem c6_expiry_boundary_witness :
    (restoreFromSessionStorage exCfg exStExpired 1000000000).success = false ∧
    (restoreFromSessionStorage exCfg exStExpired 1000000000).st.sessionData = none ∧
    (restoreFromSessionStorage exCfg exStFresh 1000000000).success = true := by
  have h1 := (c6_expiry_boundary exCfg exStExpired
    [("x", .vstr "v"), ("savedAt", .vnum (1000000000 - 86400000 - 1))] 1000000000).2.1
    rfl (by rfl)
  have h2 := (c6_expiry_boundary exCfg exStFresh
    [("x", .vstr "v"), ("savedAt", .vnum (1000000000 - 86400000 + 1))] 1000000000).2.2.1
    rfl (by rfl)
  exact ⟨h1.1, h1.2, h2⟩

/-- Witness for C7: the global hook is registered and receives the
field-adjusted data, producing the documented serialization. -/
theorem c7_transform_order_witness :
    exCfg7.middleware.beforeSave = some exGlobalSave ∧
    exGlobalSave (fieldAdjustedSave exCfg7 [("name", .vstr "x")]) =
      .ok [("name", .vstr "X_SUFFIX")] ∧
    (applyBeforeSaveTransform exCfg7 [("name", .vstr "x")]).1 =
      [("name", .vstr "X_SUFFIX")] := by
  exact ⟨rfl, rfl, c7_transform_order.1 exCfg7 [("name", .vstr "x")]
    [("name", .vstr "X_SUFFIX")] exGlobalSave rfl rfl⟩

/-- Witness for C8 at a concrete throwing field hook. -/
theorem c8_transform_failure_fallback_witness :
    exThrowCfg.middleware.beforeSave = none ∧
    exThrowFn (.vstr "z") = .error "boom" ∧
    (handleErrorMsg ("字段[" ++ "bad" ++ "]保存前转换失败") "boom") ∈
      (saveTextData exThrowCfg stEmpty exHs8 7).reported ∧
    (applyBeforeSaveTransform exThrowCfg exHs8.formData).1.lookup "bad" =
      some (.vstr "z") ∧
    (saveTextData exThrowCfg stEmpty exHs8 7).hs.hasUnsavedChanges = true := by
  have h := c8_transform_failure_fallback.1 exThrowCfg stEmpty exHs8 7 "bad" (.vstr "z")
    exThrowHooks exThrowFn "boom" rfl rfl rfl rfl rfl
  exact ⟨rfl, rfl, h.1, h.2.1, h.2.2.2.2.2⟩

/-- Witness for C10 at a concrete snapshot that lacks `savedAt`, read far
beyond the one-millisecond expiry window. -/
theorem c10_missing_savedAt_never_expires_witness :
    exStNoTs.sessionData = some [("x", .vstr "v")] ∧
    ([("x", .vstr "v")] : FMap).lookup "savedAt" = none ∧
    (restoreFromSessionStorage exCfgTiny exStNoTs 999999999).success = true := by
  have h := c10_missing_savedAt_never_expires exCfgTiny exStNoTs exBlob exHs 999999999
    [("x", .vstr "v")] rfl rfl
  exact ⟨rfl, rfl, h.2.1⟩
